import Mathlib

/-!
A shallow embedding of the value codec in `converter.go` of the
go-monetdb driver.  Wire text is modelled as Lean `String` (a sequence
of Unicode scalar values); the byte-level operations of Go are modelled
at the character level, and where Go indexes raw bytes the UTF-8 byte
length `goLen` is used, so the embedding agrees with the source on all
ASCII inputs.  Fallible conversions return `Except String` carrying a
short form of the Go error text; a Go runtime panic is modelled by the
dedicated `ConvResult.panicked` value.
-/

namespace GoMonetdb

/-- The single-quote character. -/
def quoteC : Char := Char.ofNat 39

/-- The backslash character. -/
def backslashC : Char := Char.ofNat 92

/-- The double-quote character. -/
def dquoteC : Char := Char.ofNat 34

/-- The ASCII space character. -/
def spaceC : Char := Char.ofNat 32

/-- Go unicode.IsSpace, the predicate used by strings.TrimSpace. -/
def isGoSpace (c : Char) : Bool :=
  c.toNat = 9 || c.toNat = 10 || c.toNat = 11 || c.toNat = 12 || c.toNat = 13 ||
  c.toNat = 32 || c.toNat = 0x85 || c.toNat = 0xA0 || c.toNat = 0x1680 ||
  (0x2000 ≤ c.toNat && c.toNat ≤ 0x200A) || c.toNat = 0x2028 || c.toNat = 0x2029 ||
  c.toNat = 0x202F || c.toNat = 0x205F || c.toNat = 0x3000

/-- Go strings.TrimSpace on a character list. -/
def trimSpaceL (l : List Char) : List Char :=
  ((l.dropWhile isGoSpace).reverse.dropWhile isGoSpace).reverse

/-- Go strings.TrimSpace. -/
def trimSpace (s : String) : String := ⟨trimSpaceL s.data⟩

/-- The UTF-8 byte length of a string, matching the Go built-in len. -/
def goLen (s : String) : Nat := s.data.foldl (fun n c => n + c.utf8Size) 0

/-- The helper contains of converter.go: does the string hold the
character (the source scans bytes; for the backslash byte this agrees
with the character-level scan). -/
def containsC : List Char → Char → Bool
  | [], _ => false
  | x :: xs, c => if x = c then true else containsC xs c

/-- ASCII decimal digit test (Go compares the byte against the digit
bytes 48 to 57). -/
def isDigitC (c : Char) : Bool := 48 ≤ c.toNat && c.toNat ≤ 57

/-- Value of a hexadecimal digit, as in the unhex helper of strconv. -/
def unhexD (c : Char) : Option Nat :=
  if '0' ≤ c ∧ c ≤ '9' then some (c.toNat - 48)
  else if 'a' ≤ c ∧ c ≤ 'f' then some (c.toNat - 87)
  else if 'A' ≤ c ∧ c ≤ 'F' then some (c.toNat - 55)
  else none

/-- Read exactly n hexadecimal digits, accumulating their value. -/
def readHex : Nat → Nat → List Char → Option (Nat × List Char)
  | 0, acc, s => some (acc, s)
  | _ + 1, _, [] => none
  | n + 1, acc, c :: s =>
    match unhexD c with
    | none => none
    | some d => readHex n (acc * 16 + d) s

/-- ASCII octal digit test. -/
def isOctD (c : Char) : Bool := '0' ≤ c && c ≤ '7'

/-- Go utf8.ValidRune. -/
def validRune (n : Nat) : Bool := (n < 0xD800 || 0xDFFF < n) && n ≤ 0x10FFFF

/-- Go strconv.UnquoteChar with quote character q: decode one source
character, yielding the decoded character, the multibyte flag and the
remaining input, or fail (none) on a malformed escape or an unescaped
quote.  Raw bytes from octal and hex escapes are modelled as the scalar
value they denote. -/
def unquoteChar (q : Char) : List Char → Option (Char × Bool × List Char)
  | [] => none
  | c :: s =>
    if c = q then none
    else if 0x80 ≤ c.toNat then some (c, true, s)
    else if c ≠ backslashC then some (c, false, s)
    else
      match s with
      | [] => none
      | e :: s2 =>
        if e = 'a' then some (Char.ofNat 7, false, s2)
        else if e = 'b' then some (Char.ofNat 8, false, s2)
        else if e = 'f' then some (Char.ofNat 12, false, s2)
        else if e = 'n' then some (Char.ofNat 10, false, s2)
        else if e = 'r' then some (Char.ofNat 13, false, s2)
        else if e = 't' then some (Char.ofNat 9, false, s2)
        else if e = 'v' then some (Char.ofNat 11, false, s2)
        else if e = 'x' then
          match readHex 2 0 s2 with
          | none => none
          | some (v, s3) => some (Char.ofNat v, false, s3)
        else if e = 'u' then
          match readHex 4 0 s2 with
          | none => none
          | some (v, s3) => if validRune v then some (Char.ofNat v, true, s3) else none
        else if e = 'U' then
          match readHex 8 0 s2 with
          | none => none
          | some (v, s3) => if validRune v then some (Char.ofNat v, true, s3) else none
        else if isOctD e then
          match s2 with
          | d1 :: d2 :: s3 =>
            if isOctD d1 ∧ isOctD d2 then
              let v := (e.toNat - 48) * 64 + (d1.toNat - 48) * 8 + (d2.toNat - 48)
              if v ≤ 255 then some (Char.ofNat v, false, s3) else none
            else none
          | _ => none
        else if e = backslashC then some (backslashC, false, s2)
        else if e = quoteC ∨ e = dquoteC then
          if e = q then some (e, false, s2) else none
        else none

/-- The accumulation loop of unquote: repeatedly decode one character
until the input is exhausted.  The fuel argument bounds the number of
iterations; every iteration consumes at least one input character, so
fuel equal to the input length is always sufficient. -/
def unquoteLoop : Nat → List Char → Option (List Char)
  | _, [] => some []
  | 0, _ :: _ => none
  | fuel + 1, s =>
    match unquoteChar quoteC s with
    | none => none
    | some (c, _, tail) =>
      match unquoteLoop fuel tail with
      | none => none
      | some rest => some (c :: rest)

/-- The unquote function of converter.go (adapted from strconv.Unquote):
if the input holds no backslash it is returned unchanged, otherwise it
is decoded character by character with quote character the single
quote. -/
def unquote (s : String) : Except String String :=
  if containsC s.data backslashC then
    match unquoteLoop s.data.length s.data with
    | none => Except.error "invalid syntax"
    | some l => Except.ok ⟨l⟩
  else Except.ok s

/-- Go strings.Replace with a one-character pattern and count -1:
replace every occurrence of old by new. -/
def replace1 (old : Char) (new : List Char) : List Char → List Char
  | [] => []
  | c :: rest =>
    if c = old then new ++ replace1 old new rest
    else c :: replace1 old new rest

/-- The body built by toQuotedString before the outer quotes are added:
first double every backslash, then escape every single quote. -/
def escapeBodyL (s : List Char) : List Char :=
  replace1 quoteC [backslashC, quoteC] (replace1 backslashC [backslashC, backslashC] s)

/-- String-level escapeBodyL. -/
def escapeBody (s : String) : String := ⟨escapeBodyL s.data⟩

/-- The toQuotedString encoder of converter.go: format the value (the
identity on a string), double backslashes, escape single quotes, and
wrap in single quotes.  The Go function always returns a nil error. -/
def toQuotedString (s : String) : Except String String :=
  Except.ok ⟨quoteC :: (escapeBodyL s.data ++ [quoteC])⟩

/-- Civil fields of a Go time.Time as produced by time.Parse: the
parsed calendar fields together with the zone information.  A none
zone offset stands for UTC; a fabricated zone (a recognized but
unresolvable abbreviation) carries offset zero and its name. -/
structure GoTime where
  year : Int
  month : Int
  day : Int
  hour : Int
  minute : Int
  second : Int
  zoneOffset : Option Int
  zoneName : String
deriving DecidableEq

/-- The zero Go time.Time: January 1 of year 1, midnight UTC. -/
def zeroGoTime : GoTime := ⟨1, 1, 1, 0, 0, 0, none, ""⟩

/-- The driver.Value shapes produced by the decoders of converter.go.
A float value abstracts the IEEE number by the accepted token, since
floating-point arithmetic is outside this embedding; no claim examines
a float value. -/
inductive Value where
  | str (s : String)
  | bytes (b : String)
  | int8 (n : Int)
  | int16 (n : Int)
  | int32 (n : Int)
  | int64 (n : Int)
  | float32 (tok : String)
  | float64 (tok : String)
  | boolean (b : Bool)
  | date (year month day : Int)
  | time (hour minute second : Int)
  | timestamp (t : GoTime)
deriving DecidableEq

/-- Outcome of a toGoConverter call: a decoded value, a Go error value,
or a Go runtime panic (raised by an out-of-range string slice). -/
inductive ConvResult where
  | panicked
  | error (msg : String)
  | ok (v : Value)
deriving DecidableEq

/-- The slice v[1 : len(v)-1] of converter.go, where len counts bytes:
it panics (none) whenever the byte length is below two. -/
def sliceEnds (v : String) : Option String :=
  if goLen v < 2 then none else some ⟨(v.data.drop 1).dropLast⟩

/-- The strip converter: drop the first and last byte, trim and
unescape.  The unguarded slice panics on inputs shorter than two
bytes. -/
def strip (v : String) : ConvResult :=
  match sliceEnds v with
  | none => ConvResult.panicked
  | some core =>
    match unquote (trimSpace core) with
    | Except.ok s => ConvResult.ok (Value.str s)
    | Except.error e => ConvResult.error e

/-- The stripNoQuote converter: the slice v[0 : len(v)] is the whole
string and never panics; trim and unescape directly. -/
def stripNoQuote (v : String) : ConvResult :=
  match unquote (trimSpace v) with
  | Except.ok s => ConvResult.ok (Value.str s)
  | Except.error e => ConvResult.error e

/-- The toByteArray converter: drop the first and last byte and return
the remaining bytes verbatim; the unguarded slice panics on inputs
shorter than two bytes. -/
def toByteArray (v : String) : ConvResult :=
  match sliceEnds v with
  | none => ConvResult.panicked
  | some core => ConvResult.ok (Value.bytes core)

/-- Numeric value of a nonempty ASCII digit string. -/
def digitsVal (l : List Char) : Nat := l.foldl (fun n c => n * 10 + (c.toNat - 48)) 0

/-- Go strconv.ParseInt(s, 10, bitSize): an optional single sign
followed by a nonempty run of decimal digits; a value outside the
signed range of the given width is a range error.  (Underscore digit
separators are rejected at an explicit base, as in Go.) -/
def goParseInt (bitSize : Nat) (s : List Char) : Except String Int :=
  match s with
  | [] => Except.error "invalid syntax"
  | c :: rest =>
    let ds : List Char := if c = '-' ∨ c = '+' then rest else c :: rest
    if ds = [] then Except.error "invalid syntax"
    else if ds.all isDigitC then
      let n : Int := (digitsVal ds : Int)
      let v : Int := if c = '-' then -n else n
      if v < -(2 ^ (bitSize - 1) : Int) ∨ (2 ^ (bitSize - 1) : Int) - 1 < v then
        Except.error "value out of range"
      else Except.ok v
    else Except.error "invalid syntax"

/-- The toInt8 converter (strconv.ParseInt at width 8; on error the Go
function returns the error together with a zero value, and the caller
keeps only the error). -/
def toInt8 (v : String) : ConvResult :=
  match goParseInt 8 v.data with
  | Except.ok n => ConvResult.ok (Value.int8 n)
  | Except.error e => ConvResult.error e

/-- The toInt16 converter. -/
def toInt16 (v : String) : ConvResult :=
  match goParseInt 16 v.data with
  | Except.ok n => ConvResult.ok (Value.int16 n)
  | Except.error e => ConvResult.error e

/-- The toInt32 converter. -/
def toInt32 (v : String) : ConvResult :=
  match goParseInt 32 v.data with
  | Except.ok n => ConvResult.ok (Value.int32 n)
  | Except.error e => ConvResult.error e

/-- The toInt64 converter. -/
def toInt64 (v : String) : ConvResult :=
  match goParseInt 64 v.data with
  | Except.ok n => ConvResult.ok (Value.int64 n)
  | Except.error e => ConvResult.error e

/-- Go strconv.ParseBool: the twelve accepted tokens, anything else is
a syntax error. -/
def goParseBool (s : String) : Except String Bool :=
  if s = "1" ∨ s = "t" ∨ s = "T" ∨ s = "true" ∨ s = "TRUE" ∨ s = "True" then Except.ok true
  else if s = "0" ∨ s = "f" ∨ s = "F" ∨ s = "false" ∨ s = "FALSE" ∨ s = "False" then Except.ok false
  else Except.error "invalid syntax"

/-- The toBool converter (strconv.ParseBool). -/
def toBool (v : String) : ConvResult :=
  match goParseBool v with
  | Except.ok b => ConvResult.ok (Value.boolean b)
  | Except.error e => ConvResult.error e

/-- Lower-case an ASCII letter. -/
def lowerAscii (c : Char) : Char :=
  if 'A' ≤ c && c ≤ 'Z' then Char.ofNat (c.toNat + 32) else c

/-- Count leading decimal digits. -/
def scanDigits : List Char → Nat × List Char
  | [] => (0, [])
  | c :: rest =>
    if isDigitC c then
      let p := scanDigits rest
      (p.1 + 1, p.2)
    else (0, c :: rest)

/-- Acceptance grammar of Go strconv.ParseFloat: an optional sign, the
special words inf, infinity and nan (case-insensitively), or a decimal
mantissa with an optional fraction and an optional exponent.  The
hexadecimal mantissa form of Go is not modelled; no claim examines a
float conversion. -/
def goParseFloatAccepts (s : List Char) : Bool :=
  match s with
  | [] => false
  | c0 :: rest0 =>
    let body := if c0 = '+' ∨ c0 = '-' then rest0 else c0 :: rest0
    let lbody := body.map lowerAscii
    if lbody = "inf".data ∨ lbody = "infinity".data then true
    else if (c0 :: rest0).map lowerAscii = "nan".data then true
    else
      let p1 := scanDigits body
      let p2 := match p1.2 with
        | c :: rest => if c = '.' then scanDigits rest else (0, p1.2)
        | [] => ((0 : Nat), ([] : List Char))
      if p1.1 + p2.1 = 0 then false
      else match p2.2 with
        | [] => true
        | e :: r3 =>
          if e = 'e' ∨ e = 'E' then
            let r4 := match r3 with
              | c :: rest => if c = '+' ∨ c = '-' then rest else c :: rest
              | [] => ([] : List Char)
            let p5 := scanDigits r4
            decide (0 < p5.1) && p5.2.isEmpty
          else false

/-- The toDouble converter (strconv.ParseFloat at width 64); the IEEE
value is abstracted by the accepted token. -/
def toDouble (v : String) : ConvResult :=
  if goParseFloatAccepts v.data then ConvResult.ok (Value.float64 v)
  else ConvResult.error "invalid syntax"

/-- The toFloat converter (strconv.ParseFloat at width 32 followed by a
float32 conversion); the IEEE value is abstracted by the accepted
token. -/
def toFloat (v : String) : ConvResult :=
  if goParseFloatAccepts v.data then ConvResult.ok (Value.float32 v)
  else ConvResult.error "invalid syntax"

/-- The layout tokens of Go time.Parse occurring in the layouts of
timeFormats: literal characters and the reference-time fields. -/
inductive TTok where
  | lit (c : Char)
  | longYear
  | zeroMonth
  | zeroDay
  | dayNum
  | hourNum
  | zeroMinute
  | zeroSecond
  | numTZ
  | tzName
  | weekDayName
  | monthName
deriving DecidableEq

/-- The chunking of the six layouts of timeFormats by nextStdChunk of
the Go time package: 2006 is the four-digit year, 01 and 02 the
two-digit month and day, 2 the unpadded day, 15 the 24-hour hour, 04
and 05 the two-digit minute and second, -0700 the numeric zone, MST
the zone name, Mon and Jan the short weekday and month names; every
other character is a literal.  Layouts not used by converter.go are
not modelled. -/
def layoutToks (layout : String) : Option (List TTok) :=
  if layout = "2006-01-02" then
    some [TTok.longYear, TTok.lit '-', TTok.zeroMonth, TTok.lit '-', TTok.zeroDay]
  else if layout = "2006-01-02 15:04:05" then
    some [TTok.longYear, TTok.lit '-', TTok.zeroMonth, TTok.lit '-', TTok.zeroDay,
          TTok.lit spaceC, TTok.hourNum, TTok.lit ':', TTok.zeroMinute, TTok.lit ':',
          TTok.zeroSecond]
  else if layout = "2006-01-02 15:04:05 -0700" then
    some [TTok.longYear, TTok.lit '-', TTok.zeroMonth, TTok.lit '-', TTok.zeroDay,
          TTok.lit spaceC, TTok.hourNum, TTok.lit ':', TTok.zeroMinute, TTok.lit ':',
          TTok.zeroSecond, TTok.lit spaceC, TTok.numTZ]
  else if layout = "2006-01-02 15:04:05 -0700 MST" then
    some [TTok.longYear, TTok.lit '-', TTok.zeroMonth, TTok.lit '-', TTok.zeroDay,
          TTok.lit spaceC, TTok.hourNum, TTok.lit ':', TTok.zeroMinute, TTok.lit ':',
          TTok.zeroSecond, TTok.lit spaceC, TTok.numTZ, TTok.lit spaceC, TTok.tzName]
  else if layout = "Mon Jan 2 15:04:05 -0700 MST 2006" then
    some [TTok.weekDayName, TTok.lit spaceC, TTok.monthName, TTok.lit spaceC, TTok.dayNum,
          TTok.lit spaceC, TTok.hourNum, TTok.lit ':', TTok.zeroMinute, TTok.lit ':',
          TTok.zeroSecond, TTok.lit spaceC, TTok.numTZ, TTok.lit spaceC, TTok.tzName,
          TTok.lit spaceC, TTok.longYear]
  else if layout = "15:04:05" then
    some [TTok.hourNum, TTok.lit ':', TTok.zeroMinute, TTok.lit ':', TTok.zeroSecond]
  else none

/-- The getnum helper of the Go time package: one or, when the second
character is a digit, two decimal digits; with fixed set exactly two
digits are required. -/
def getnum (fixed : Bool) : List Char → Option (Nat × List Char)
  | [] => none
  | c :: rest =>
    if ¬ isDigitC c then none
    else
      match rest with
      | c2 :: rest2 =>
        if isDigitC c2 then some ((c.toNat - 48) * 10 + (c2.toNat - 48), rest2)
        else if fixed then none
        else some (c.toNat - 48, c2 :: rest2)
      | [] => if fixed then none else some (c.toNat - 48, [])

/-- Take exactly n characters. -/
def takeN (n : Nat) (l : List Char) : Option (List Char × List Char) :=
  if n ≤ l.length then some (l.take n, l.drop n) else none

/-- Case-insensitive ASCII comparison of two equal-length character
lists, as in the match helper of the Go time package. -/
def matchCI : List Char → List Char → Bool
  | [], [] => true
  | a :: as2, b :: bs2 =>
    (a = b ||
      ((a.toNat ||| 32) = (b.toNat ||| 32) && 97 ≤ (a.toNat ||| 32) && (a.toNat ||| 32) ≤ 122))
    && matchCI as2 bs2
  | _, _ => false

/-- The lookup helper of the Go time package: find the first table
entry that is a case-insensitive prefix of the input, returning its
index and the rest of the input. -/
def lookupNameAux (i : Nat) (tab : List String) (val : List Char) : Option (Nat × List Char) :=
  match tab with
  | [] => none
  | v :: rest =>
    if v.data.length ≤ val.length ∧ matchCI (val.take v.data.length) v.data then
      some (i, val.drop v.data.length)
    else lookupNameAux (i + 1) rest val

/-- Index lookup over a name table. -/
def lookupName (tab : List String) (val : List Char) : Option (Nat × List Char) :=
  lookupNameAux 0 tab val

/-- The short weekday names of the Go time package. -/
def shortDayNames : List String := ["Sun", "Mon", "Tue", "Wed", "Thu", "Fri", "Sat"]

/-- The short month names of the Go time package. -/
def shortMonthNames : List String :=
  ["Jan", "Feb", "Mar", "Apr", "May", "Jun", "Jul", "Aug", "Sep", "Oct", "Nov", "Dec"]

/-- Parse a -0700 numeric zone: a sign followed by two hour digits and
two minute digits, yielding the offset in seconds. -/
def stepNumTZ (value : List Char) : Option (Int × List Char) :=
  match value with
  | sg :: h1 :: h2 :: m1 :: m2 :: rest =>
    if (sg = '+' ∨ sg = '-') ∧ isDigitC h1 ∧ isDigitC h2 ∧ isDigitC m1 ∧ isDigitC m2 then
      let hr := (h1.toNat - 48) * 10 + (h2.toNat - 48)
      let mm := (m1.toNat - 48) * 10 + (m2.toNat - 48)
      let off : Int := ((hr * 60 + mm) * 60 : Nat)
      some (if sg = '-' then -off else off, rest)
    else none
  | _ => none

/-- ASCII upper-case letter test. -/
def isUpperC (c : Char) : Bool := 'A' ≤ c && c ≤ 'Z'

/-- The parseTimeZone helper of the Go time package, restricted to the
abbreviation forms: ChST, plain GMT, and runs of three to five upper
case letters with the four- and five-letter forms required to end in T
(or be WITA).  The GMT-with-offset and signed-offset zone forms are
not modelled; no claim exercises them. -/
def parseTimeZoneLen (value : List Char) : Option Nat :=
  if value.length < 3 then none
  else if value.take 4 = "ChST".data then some 4
  else if value.take 3 = "GMT".data then some 3
  else
    let nUpper := min ((value.takeWhile isUpperC).length) 6
    if nUpper = 3 then some 3
    else if nUpper = 4 then
      if value.get? 3 = some 'T' ∨ value.take 4 = "WITA".data then some 4 else none
    else if nUpper = 5 then
      if value.get? 4 = some 'T' then some 5 else none
    else none

/-- Parser state of time.Parse: the Go source initializes the month
and day to the sentinel -1, the other numeric fields to zero, and
records a pending range error in rangeErr. -/
structure PState where
  year : Int := 0
  month : Int := -1
  day : Int := -1
  hour : Int := 0
  minute : Int := 0
  second : Int := 0
  zoneOffset : Option Int := none
  zoneName : String := ""
  rangeErr : Option String := none
deriving DecidableEq

/-- Process one layout token against the remaining input, as the parse
loop of Go time.Parse does: a literal space in the layout matches a
(possibly empty) run of spaces, every other literal must match
exactly; numeric fields use getnum with the range checks of the
source. -/
def stepTok (st : PState) (t : TTok) (value : List Char) : Except String (PState × List Char) :=
  match t with
  | TTok.lit c =>
    if c = spaceC then
      match value with
      | v0 :: rest =>
        if v0 = spaceC then Except.ok (st, (v0 :: rest).dropWhile (fun x => x = spaceC))
        else Except.error "cannot parse"
      | [] => Except.ok (st, [])
    else
      match value with
      | v0 :: rest => if v0 = c then Except.ok (st, rest) else Except.error "cannot parse"
      | [] => Except.error "cannot parse"
  | TTok.longYear =>
    match takeN 4 value with
    | none => Except.error "cannot parse"
    | some (p, rest) =>
      if p.all isDigitC then Except.ok ({ st with year := (digitsVal p : Int) }, rest)
      else Except.error "cannot parse"
  | TTok.zeroMonth =>
    match getnum true value with
    | none => Except.error "cannot parse"
    | some (m, rest) =>
      let st2 := { st with month := (m : Int) }
      Except.ok (if m = 0 ∨ 12 < m then { st2 with rangeErr := some "month" } else st2, rest)
  | TTok.zeroDay =>
    match getnum true value with
    | none => Except.error "cannot parse"
    | some (d, rest) => Except.ok ({ st with day := (d : Int) }, rest)
  | TTok.dayNum =>
    match getnum false value with
    | none => Except.error "cannot parse"
    | some (d, rest) => Except.ok ({ st with day := (d : Int) }, rest)
  | TTok.hourNum =>
    match getnum false value with
    | none => Except.error "cannot parse"
    | some (h, rest) =>
      let st2 := { st with hour := (h : Int) }
      Except.ok (if 24 ≤ h then { st2 with rangeErr := some "hour" } else st2, rest)
  | TTok.zeroMinute =>
    match getnum true value with
    | none => Except.error "cannot parse"
    | some (m, rest) =>
      let st2 := { st with minute := (m : Int) }
      Except.ok (if 60 ≤ m then { st2 with rangeErr := some "minute" } else st2, rest)
  | TTok.zeroSecond =>
    match getnum true value with
    | none => Except.error "cannot parse"
    | some (s, rest) =>
      let st2 := { st with second := (s : Int) }
      Except.ok (if 60 ≤ s then { st2 with rangeErr := some "second" } else st2, rest)
  | TTok.numTZ =>
    match stepNumTZ value with
    | none => Except.error "cannot parse"
    | some (off, rest) => Except.ok ({ st with zoneOffset := some off }, rest)
  | TTok.tzName =>
    if value.take 3 = "UTC".data then
      Except.ok ({ st with zoneOffset := some 0, zoneName := "UTC" }, value.drop 3)
    else
      match parseTimeZoneLen value with
      | none => Except.error "cannot parse"
      | some n => Except.ok ({ st with zoneName := ⟨value.take n⟩ }, value.drop n)
  | TTok.weekDayName =>
    match lookupName shortDayNames value with
    | none => Except.error "cannot parse"
    | some (_, rest) => Except.ok (st, rest)
  | TTok.monthName =>
    match lookupName shortMonthNames value with
    | none => Except.error "cannot parse"
    | some (i, rest) => Except.ok ({ st with month := (i : Int) + 1 }, rest)

/-- Days in a month, with the Gregorian leap-year rule, as daysIn of
the Go time package. -/
def daysIn (m : Int) (year : Int) : Int :=
  if m = 2 then
    (if year % 4 = 0 ∧ (year % 100 ≠ 0 ∨ year % 400 = 0) then 29 else 28)
  else if m = 4 ∨ m = 6 ∨ m = 9 ∨ m = 11 then 30
  else 31

/-- The end of time.Parse: report a pending range error, default the
month and day to one, validate the day of the month, and resolve the
zone (a recognized but unresolved abbreviation becomes a fabricated
zone with offset zero). -/
def finalizeParse (st : PState) : Except String GoTime :=
  match st.rangeErr with
  | some f => Except.error (f ++ " out of range")
  | none =>
    let month := if st.month < 0 then 1 else st.month
    let day := if st.day < 0 then 1 else st.day
    if day < 1 ∨ daysIn month st.year < day then Except.error "day out of range"
    else
      let off := match st.zoneOffset with
        | some o => some o
        | none => if st.zoneName ≠ "" then some 0 else none
      Except.ok ⟨st.year, month, day, st.hour, st.minute, st.second, off, st.zoneName⟩

/-- Run the token list of a layout over the input; when the layout is
exhausted any remaining input is the extra-text error of time.Parse. -/
def runToks (st : PState) : List TTok → List Char → Except String GoTime
  | [], value => if value = [] then finalizeParse st else Except.error "extra text"
  | t :: rest, value =>
    match stepTok st t value with
    | Except.error e => Except.error e
    | Except.ok (st2, v2) => runToks st2 rest v2

/-- Go time.Parse restricted to the layouts of timeFormats. -/
def goTimeParse (layout : String) (value : String) : Except String GoTime :=
  match layoutToks layout with
  | none => Except.error "layout not modelled"
  | some toks => runToks {} toks value.data

/-- The ordered layout list timeFormats of converter.go. -/
def timeFormats : List String :=
  ["2006-01-02",
   "2006-01-02 15:04:05",
   "2006-01-02 15:04:05 -0700",
   "2006-01-02 15:04:05 -0700 MST",
   "Mon Jan 2 15:04:05 -0700 MST 2006",
   "15:04:05"]

/-- The loop of parseTime: try each layout in order and return the
first successful parse; when every layout fails the named return
values hold the last error.  On an empty layout list the Go loop body
never runs and the zero time with a nil error is returned. -/
def parseTimeAux (v : String) : List String → Except String GoTime
  | [] => Except.ok zeroGoTime
  | [f] => goTimeParse f v
  | f :: rest =>
    match goTimeParse f v with
    | Except.ok t => Except.ok t
    | Except.error _ => parseTimeAux v rest

/-- The parseTime function of converter.go. -/
def parseTime (v : String) : Except String GoTime := parseTimeAux v timeFormats

/-- The toDate converter: parse, then keep the calendar date (the Date
method of the parsed time). -/
def toDate (v : String) : ConvResult :=
  match parseTime v with
  | Except.error e => ConvResult.error e
  | Except.ok t => ConvResult.ok (Value.date t.year t.month t.day)

/-- The toTime converter: parse, then keep the time of day (the Clock
method of the parsed time). -/
def toTime (v : String) : ConvResult :=
  match parseTime v with
  | Except.error e => ConvResult.error e
  | Except.ok t => ConvResult.ok (Value.time t.hour t.minute t.second)

/-- The toTimestamp converter: the parsed time itself. -/
def toTimestamp (v : String) : ConvResult :=
  match parseTime v with
  | Except.error e => ConvResult.error e
  | Except.ok t => ConvResult.ok (Value.timestamp t)

/-- The toTimestampTz converter: identical to toTimestamp. -/
def toTimestampTz (v : String) : ConvResult :=
  match parseTime v with
  | Except.error e => ConvResult.error e
  | Except.ok t => ConvResult.ok (Value.timestamp t)

/-- The type-tag constants of converter.go. -/
def mdb_CHAR : String := "char"

/-- varchar. -/
def mdb_VARCHAR : String := "varchar"

/-- clob. -/
def mdb_CLOB : String := "clob"

/-- blob. -/
def mdb_BLOB : String := "blob"

/-- decimal. -/
def mdb_DECIMAL : String := "decimal"

/-- smallint. -/
def mdb_SMALLINT : String := "smallint"

/-- int. -/
def mdb_INT : String := "int"

/-- bigint. -/
def mdb_BIGINT : String := "bigint"

/-- hugeint. -/
def mdb_HUGEINT : String := "hugeint"

/-- serial. -/
def mdb_SERIAL : String := "serial"

/-- real. -/
def mdb_REAL : String := "real"

/-- double. -/
def mdb_DOUBLE : String := "double"

/-- boolean. -/
def mdb_BOOLEAN : String := "boolean"

/-- date. -/
def mdb_DATE : String := "date"

/-- time. -/
def mdb_TIME : String := "time"

/-- timestamp. -/
def mdb_TIMESTAMP : String := "timestamp"

/-- interval. -/
def mdb_INTERVAL : String := "interval"

/-- uuid. -/
def mdb_UUID : String := "uuid"

/-- month_interval. -/
def mdb_MONTH_INTERVAL : String := "month_interval"

/-- sec_interval. -/
def mdb_SEC_INTERVAL : String := "sec_interval"

/-- wrd. -/
def mdb_WRD : String := "wrd"

/-- tinyint. -/
def mdb_TINYINT : String := "tinyint"

/-- shortint. -/
def mdb_SHORTINT : String := "shortint"

/-- mediumint. -/
def mdb_MEDIUMINT : String := "mediumint"

/-- longint. -/
def mdb_LONGINT : String := "longint"

/-- float. -/
def mdb_FLOAT : String := "float"

/-- timestamptz. -/
def mdb_TIMESTAMPTZ : String := "timestamptz"

/-- Alias constant of the source: the full name character is defined
as the canonical constant, so its value is the string char. -/
def mdb_CHARACTER : String := mdb_CHAR

/-- Alias constant: character varying, defined as varchar. -/
def mdb_CHARACTER_VARYING : String := mdb_VARCHAR

/-- Alias constant (spelled charachter in the source): character large
object, defined as clob. -/
def mdb_CHARACHTER_LARGE_OBJECT : String := mdb_CLOB

/-- Alias constant: binary large object, defined as blob. -/
def mdb_BINARY_LARGE_OBJECT : String := mdb_BLOB

/-- Alias constant: numeric, defined as decimal. -/
def mdb_NUMERIC : String := mdb_DECIMAL

/-- Alias constant: double precision, defined as double. -/
def mdb_DOUBLE_PRECISION : String := mdb_DOUBLE

/-- The toGoMappers dispatch table of converter.go as an association
list; its keys are pairwise distinct, so modelling the Go map by a
first-match lookup is exact. -/
def toGoMappersList : List (String × (String → ConvResult)) :=
  [(mdb_CHAR, strip),
   (mdb_VARCHAR, strip),
   (mdb_CLOB, strip),
   (mdb_BLOB, toByteArray),
   (mdb_DECIMAL, toDouble),
   (mdb_SMALLINT, toInt16),
   (mdb_INT, toInt32),
   (mdb_WRD, toInt32),
   (mdb_BIGINT, toInt64),
   (mdb_HUGEINT, toInt64),
   (mdb_SERIAL, toInt64),
   (mdb_REAL, toFloat),
   (mdb_DOUBLE, toDouble),
   (mdb_BOOLEAN, toBool),
   (mdb_DATE, toDate),
   (mdb_TIME, toTime),
   (mdb_TIMESTAMP, toTimestamp),
   (mdb_TIMESTAMPTZ, toTimestampTz),
   (mdb_INTERVAL, strip),
   (mdb_MONTH_INTERVAL, strip),
   (mdb_SEC_INTERVAL, strip),
   (mdb_TINYINT, toInt8),
   (mdb_SHORTINT, toInt16),
   (mdb_MEDIUMINT, toInt32),
   (mdb_LONGINT, toInt64),
   (mdb_FLOAT, toFloat),
   (mdb_UUID, stripNoQuote)]

/-- Map lookup over the dispatch table. -/
def toGoMappers (tag : String) : Option (String → ConvResult) :=
  (toGoMappersList.find? (fun p => p.1 = tag)).map Prod.snd

/-- The known type-tag universe: the keys of the dispatch table. -/
def knownTypeTags : List String := toGoMappersList.map Prod.fst

/-- The convertToGo entry point of converter.go: trim the value, look
the tag up in the dispatch table and apply the matched converter; an
unknown tag is the unsupported-type error. -/
def convertToGo (value dataType : String) : ConvResult :=
  match toGoMappers dataType with
  | some m => m (trimSpace value)
  | none => ConvResult.error ("Type not supported: " ++ dataType)

/-- The twelve tokens accepted by strconv.ParseBool. -/
def boolTokens : List String :=
  ["1", "t", "T", "true", "TRUE", "True", "0", "f", "F", "false", "FALSE", "False"]

/-- The integer family of the decode table with its declared bit
widths. -/
def intFamily : List (String × Nat) :=
  [(mdb_TINYINT, 8), (mdb_SMALLINT, 16), (mdb_SHORTINT, 16),
   (mdb_INT, 32), (mdb_WRD, 32), (mdb_MEDIUMINT, 32),
   (mdb_BIGINT, 64), (mdb_HUGEINT, 64), (mdb_SERIAL, 64), (mdb_LONGINT, 64)]

/-- The Value constructor used by the integer converter of a given
width. -/
def mkIntValue (w : Nat) (n : Int) : Value :=
  if w = 8 then Value.int8 n
  else if w = 16 then Value.int16 n
  else if w = 32 then Value.int32 n
  else Value.int64 n

/-- Is the conversion outcome an error. -/
def isErr {α : Type} (r : Except String α) : Bool :=
  match r with
  | Except.error _ => true
  | Except.ok _ => false

theorem escapeBodyL_cons_bs (rest : List Char) :
    escapeBodyL (backslashC :: rest) = backslashC :: backslashC :: escapeBodyL rest := by
  have h1 : backslashC ≠ quoteC := by decide
  simp [escapeBodyL, replace1, h1]

theorem escapeBodyL_cons_q (rest : List Char) :
    escapeBodyL (quoteC :: rest) = backslashC :: quoteC :: escapeBodyL rest := by
  have h1 : quoteC ≠ backslashC := by decide
  simp [escapeBodyL, replace1, h1]

theorem escapeBodyL_cons_plain (c : Char) (rest : List Char)
    (h1 : c ≠ backslashC) (h2 : c ≠ quoteC) :
    escapeBodyL (c :: rest) = c :: escapeBodyL rest := by
  simp [escapeBodyL, replace1, h1, h2]

theorem escapeBodyL_length (s : List Char) : s.length ≤ (escapeBodyL s).length := by
  induction s with
  | nil => simp [escapeBodyL, replace1]
  | cons c rest ih =>
    by_cases hb : c = backslashC
    · subst hb
      rw [escapeBodyL_cons_bs]
      simp only [List.length_cons]
      omega
    · by_cases hq : c = quoteC
      · subst hq
        rw [escapeBodyL_cons_q]
        simp only [List.length_cons]
        omega
      · rw [escapeBodyL_cons_plain c rest hb hq]
        simp only [List.length_cons]
        omega

theorem unquoteChar_bs_bs (X : List Char) :
    unquoteChar quoteC (backslashC :: backslashC :: X) = some (backslashC, false, X) := rfl

theorem unquoteChar_bs_q (X : List Char) :
    unquoteChar quoteC (backslashC :: quoteC :: X) = some (quoteC, false, X) := rfl

theorem unquoteChar_plain (c : Char) (X : List Char) (h1 : c ≠ quoteC) (h2 : c ≠ backslashC) :
    ∃ mb, unquoteChar quoteC (c :: X) = some (c, mb, X) := by
  by_cases hm : 0x80 ≤ c.toNat
  · exact ⟨true, by simp [unquoteChar, h1, hm]⟩
  · exact ⟨false, by simp [unquoteChar, h1, hm, h2]⟩

theorem unquoteLoop_nil (fuel : Nat) : unquoteLoop fuel [] = some [] := by
  cases fuel <;> rfl

theorem unquoteLoop_cons (fuel : Nat) (y : Char) (ys : List Char) :
    unquoteLoop (fuel + 1) (y :: ys) =
      match unquoteChar quoteC (y :: ys) with
      | none => none
      | some (c, _, tail) =>
        match unquoteLoop fuel tail with
        | none => none
        | some rest => some (c :: rest) := rfl

theorem unquoteLoop_escape (s : List Char) :
    ∀ fuel : Nat, s.length ≤ fuel → unquoteLoop fuel (escapeBodyL s) = some s := by
  induction s with
  | nil => intro fuel _; simpa [escapeBodyL, replace1] using unquoteLoop_nil fuel
  | cons c rest ih =>
    intro fuel hf
    cases fuel with
    | zero => simp at hf
    | succ f =>
      have hrest : rest.length ≤ f := by simp at hf; omega
      by_cases hb : c = backslashC
      · subst hb
        rw [escapeBodyL_cons_bs, unquoteLoop_cons, unquoteChar_bs_bs]
        simp [ih f hrest]
      · by_cases hq : c = quoteC
        · subst hq
          rw [escapeBodyL_cons_q, unquoteLoop_cons, unquoteChar_bs_q]
          simp [ih f hrest]
        · rw [escapeBodyL_cons_plain c rest hb hq]
          obtain ⟨mb, hm⟩ := unquoteChar_plain c (escapeBodyL rest) hq hb
          rw [unquoteLoop_cons, hm]
          simp [ih f hrest]

theorem escapeBodyL_no_bs (s : List Char)
    (h : containsC (escapeBodyL s) backslashC = false) : escapeBodyL s = s := by
  induction s with
  | nil => simp [escapeBodyL, replace1]
  | cons c rest ih =>
    by_cases hb : c = backslashC
    · subst hb
      rw [escapeBodyL_cons_bs] at h
      simp [containsC] at h
    · by_cases hq : c = quoteC
      · subst hq
        rw [escapeBodyL_cons_q] at h
        simp [containsC] at h
      · rw [escapeBodyL_cons_plain c rest hb hq] at h ⊢
        rw [ih]
        simp [containsC, hb] at h
        exact h

theorem trimSpaceL_eq_self (l : List Char) (h : ∀ c ∈ l, isGoSpace c = false) :
    trimSpaceL l = l := by
  unfold trimSpaceL
  have h1 : l.dropWhile isGoSpace = l := by
    cases l with
    | nil => rfl
    | cons a as => simp [List.dropWhile_cons, h a (by simp)]
  rw [h1]
  have h2 : l.reverse.dropWhile isGoSpace = l.reverse := by
    cases hr : l.reverse with
    | nil => rfl
    | cons a as =>
      have ha : a ∈ l := by
        rw [← List.mem_reverse, hr]
        simp
      simp [List.dropWhile_cons, h a ha]
  rw [h2, List.reverse_reverse]

theorem digit_not_space (c : Char) (h : isDigitC c = true) : isGoSpace c = false := by
  simp [isDigitC] at h
  simp [isGoSpace]
  omega

theorem digit_ne_minus (c : Char) (h : isDigitC c = true) : c ≠ '-' := by
  rintro rfl
  exact absurd h (by decide)

theorem digit_ne_plus (c : Char) (h : isDigitC c = true) : c ≠ '+' := by
  rintro rfl
  exact absurd h (by decide)

theorem goParseInt_digits (w : Nat) (ds : List Char) (hne : ds ≠ [])
    (hd : ds.all isDigitC = true) :
    goParseInt w ds =
      if (digitsVal ds : Int) ≤ 2 ^ (w - 1) - 1 then Except.ok ((digitsVal ds : Int))
      else Except.error "value out of range" := by
  obtain ⟨c, rest, rfl⟩ := List.exists_cons_of_ne_nil hne
  have hc : isDigitC c = true := by
    rw [List.all_cons, Bool.and_eq_true] at hd
    exact hd.1
  have hm : c ≠ '-' := digit_ne_minus c hc
  have hpl : c ≠ '+' := digit_ne_plus c hc
  have hp : (0 : Int) < 2 ^ (w - 1) := by positivity
  have hpos : (0 : Int) ≤ (digitsVal (c :: rest) : Int) := Int.ofNat_nonneg _
  simp only [goParseInt]
  rw [if_neg (show ¬(c = '-' ∨ c = '+') by rintro (h | h) <;> [exact hm h; exact hpl h])]
  rw [if_neg (show ¬(c :: rest = []) by simp), if_pos hd, if_neg hm]
  by_cases hle : (digitsVal (c :: rest) : Int) ≤ 2 ^ (w - 1) - 1
  · rw [if_neg (by omega), if_pos hle]
  · rw [if_pos (by omega), if_neg hle]

theorem goParseInt_neg_digits (w : Nat) (ds : List Char) (hne : ds ≠ [])
    (hd : ds.all isDigitC = true) :
    goParseInt w ('-' :: ds) =
      if -(2 ^ (w - 1) : Int) ≤ -(digitsVal ds : Int) then Except.ok (-(digitsVal ds : Int))
      else Except.error "value out of range" := by
  have hp : (0 : Int) < 2 ^ (w - 1) := by positivity
  have hpos : (0 : Int) ≤ (digitsVal ds : Int) := Int.ofNat_nonneg _
  simp only [goParseInt, true_or, ite_true]
  rw [if_neg hne, if_pos hd]
  by_cases hle : -(2 ^ (w - 1) : Int) ≤ -(digitsVal ds : Int)
  · rw [if_neg (by omega), if_pos hle]
  · rw [if_pos (by omega), if_neg hle]

theorem parseTimeAux_first (v : String) (L : List String) :
    ∀ (i : Nat) (hi : i < L.length) (t : GoTime),
      (∀ j, (hj : j < L.length) → j < i → isErr (goTimeParse (L.get ⟨j, hj⟩) v) = true) →
      goTimeParse (L.get ⟨i, hi⟩) v = Except.ok t →
      parseTimeAux v L = Except.ok t := by
  induction L with
  | nil => intro i hi; simp at hi
  | cons f rest ih =>
    intro i hi t hprev hok
    cases i with
    | zero =>
      simp only [List.get] at hok
      cases rest with
      | nil => simpa [parseTimeAux] using hok
      | cons r rs => simp [parseTimeAux, hok]
    | succ i2 =>
      have h0 : isErr (goTimeParse f v) = true := by
        have := hprev 0 (by simp) (Nat.succ_pos i2)
        simpa using this
      obtain ⟨e, he⟩ : ∃ e, goTimeParse f v = Except.error e := by
        cases hE : goTimeParse f v with
        | ok w => rw [hE] at h0; simp [isErr] at h0
        | error e => exact ⟨e, rfl⟩
      have hi2 : i2 < rest.length := by simpa using hi
      cases rest with
      | nil => simp at hi2
      | cons r rs =>
        have hstep : parseTimeAux v (f :: r :: rs) = parseTimeAux v (r :: rs) := by
          simp [parseTimeAux, he]
        rw [hstep]
        refine ih i2 hi2 t ?_ ?_
        · intro j hj hlt
          have := hprev (j + 1) (by simpa using Nat.succ_lt_succ hj) (Nat.succ_lt_succ hlt)
          simpa using this
        · simpa using hok

theorem parseTimeAux_all_err (v : String) (L : List String) (hne : L ≠ [])
    (h : ∀ f ∈ L, isErr (goTimeParse f v) = true) : isErr (parseTimeAux v L) = true := by
  induction L with
  | nil => exact absurd rfl hne
  | cons f rest ih =>
    have h0 : isErr (goTimeParse f v) = true := h f (by simp)
    obtain ⟨e, he⟩ : ∃ e, goTimeParse f v = Except.error e := by
      cases hE : goTimeParse f v with
      | ok w => rw [hE] at h0; simp [isErr] at h0
      | error e => exact ⟨e, rfl⟩
    cases rest with
    | nil => simp [parseTimeAux, he, isErr]
    | cons r rs =>
      have hstep : parseTimeAux v (f :: r :: rs) = parseTimeAux v (r :: rs) := by
        simp [parseTimeAux, he]
      rw [hstep]
      exact ih (by simp) (fun g hg => h g (by simp [hg]))

/-- C1 (counterexample): the claim says decode with the alias tag
character_varying returns exactly the same result as decode with the
canonical tag varchar on any input; on the input of a quoted letter
the alias spelling is rejected as an unsupported type while the
canonical tag succeeds, because the alias constants of the source are
defined as the canonical strings and the full-name spellings are not
keys of the dispatch table. -/
theorem alias_spelling_counterexample :
    convertToGo "'a'" "character_varying" =
      ConvResult.error "Type not supported: character_varying" ∧
    convertToGo "'a'" "varchar" = ConvResult.ok (Value.str "a") := by
  constructor
  · rfl
  · decide

/-- C1 (amended): each alias constant of the source is defined equal
to its canonical constant, so decoding with an alias constant is
literally decoding with the canonical tag, for every input; the
full-name spellings themselves, taken as tag strings, are not in the
dispatch table and always fail with the unsupported-type error. -/
theorem alias_constants_decode_identically :
    (∀ v : String, convertToGo v mdb_CHARACTER = convertToGo v mdb_CHAR) ∧
    (∀ v : String, convertToGo v mdb_CHARACTER_VARYING = convertToGo v mdb_VARCHAR) ∧
    (∀ v : String, convertToGo v mdb_CHARACHTER_LARGE_OBJECT = convertToGo v mdb_CLOB) ∧
    (∀ v : String, convertToGo v mdb_BINARY_LARGE_OBJECT = convertToGo v mdb_BLOB) ∧
    (∀ v : String, convertToGo v mdb_NUMERIC = convertToGo v mdb_DECIMAL) ∧
    (∀ v : String, convertToGo v mdb_DOUBLE_PRECISION = convertToGo v mdb_DOUBLE) ∧
    (∀ v : String, convertToGo v "character" =
      ConvResult.error "Type not supported: character") ∧
    (∀ v : String, convertToGo v "character_varying" =
      ConvResult.error "Type not supported: character_varying") ∧
    (∀ v : String, convertToGo v "charachter_large_object" =
      ConvResult.error "Type not supported: charachter_large_object") ∧
    (∀ v : String, convertToGo v "binary_large_object" =
      ConvResult.error "Type not supported: binary_large_object") ∧
    (∀ v : String, convertToGo v "numeric" =
      ConvResult.error "Type not supported: numeric") ∧
    (∀ v : String, convertToGo v "double_precision" =
      ConvResult.error "Type not supported: double_precision") :=
  ⟨fun _ => rfl, fun _ => rfl, fun _ => rfl, fun _ => rfl, fun _ => rfl, fun _ => rfl,
   fun _ => rfl, fun _ => rfl, fun _ => rfl, fun _ => rfl, fun _ => rfl, fun _ => rfl⟩

/-- C2 (counterexample): the claim says the layout list is arranged
from most specific (date plus time plus zone name) down to least
specific; in the source the bare-date layout sits at index 0 and the
date-time-zone-name layout at index 3, so the more specific layout
does not precede the less specific one. -/
theorem timeFormats_order_counterexample :
    timeFormats.get? 0 = some "2006-01-02" ∧
    timeFormats.get? 3 = some "2006-01-02 15:04:05 -0700 MST" ∧
    timeFormats.get? 5 = some "15:04:05" ∧
    ¬ (timeFormats.indexOf "2006-01-02 15:04:05 -0700 MST" <
        timeFormats.indexOf "2006-01-02") := by
  refine ⟨rfl, rfl, rfl, ?_⟩
  decide

/-- C4: decoding the zoned date-time input with the timestamp tag
succeeds and yields year 2006, month 1, day 2, 15:04:05 at offset
-0700 (-25200 seconds); the bare-date layout rejects the input because
time.Parse requires the whole value to be consumed, so the result is
not truncated to the date. -/
theorem timestamp_zoned_decode :
    convertToGo "2006-01-02 15:04:05 -0700" "timestamp" =
      ConvResult.ok (Value.timestamp ⟨2006, 1, 2, 15, 4, 5, some (-25200), ""⟩) := by
  decide

/-- C7: the escaper never fails, and on the example string value of
the spec (the word it followed by a quoted s) it produces exactly the
quoted literal with the inner single quote escaped by a backslash. -/
theorem escaper_never_fails_and_quotes :
    (∀ s : String, ∃ t, toQuotedString s = Except.ok t) ∧
    toQuotedString "it's" = Except.ok "'it\\'s'" := by
  constructor
  · intro s
    exact ⟨_, rfl⟩
  · rfl

/-- C10: every temporal tag delegates to the same layout list, so the
date tag accepts a time-of-day-only input and yields the default date
of year 0, month 1, day 1, and the time tag accepts a date-only input
and yields midnight. -/
theorem temporal_cross_tag_decode :
    convertToGo "15:04:05" "date" = ConvResult.ok (Value.date 0 1 1) ∧
    convertToGo "2006-01-02" "time" = ConvResult.ok (Value.time 0 0 0) := by
  constructor <;> decide

/-- C3: the body produced by the escaper (its output without the outer
quote characters, here escapeBody) unescapes back to the original
string: unquote after escapeBody is the identity, for every string. -/
theorem unescape_escape_body_roundtrip :
    (∀ s : String, toQuotedString s = Except.ok ("'" ++ escapeBody s ++ "'")) ∧
    (∀ s : String, unquote (escapeBody s) = Except.ok s) := by
  constructor
  · intro s
    rfl
  · intro s
    unfold unquote
    by_cases hc : containsC (escapeBody s).data backslashC
    · rw [if_pos hc]
      have h1 : unquoteLoop (escapeBody s).data.length (escapeBody s).data = some s.data :=
        unquoteLoop_escape s.data _ (escapeBodyL_length s.data)
      rw [h1]
    · rw [if_neg hc]
      have hc2 : containsC (escapeBody s).data backslashC = false := by
        simpa using hc
      have h2 : escapeBodyL s.data = s.data := escapeBodyL_no_bs s.data hc2
      show Except.ok (escapeBody s) = Except.ok s
      unfold escapeBody
      rw [h2]

/-- C6: boolean decoding accepts the canonical forms, their case
variants and the shorthand tokens, and rejects everything else (after
trimming) with the syntax error of strconv.ParseBool. -/
theorem boolean_grammar_decode :
    convertToGo "true" "boolean" = ConvResult.ok (Value.boolean true) ∧
    convertToGo "T" "boolean" = ConvResult.ok (Value.boolean true) ∧
    convertToGo "1" "boolean" = ConvResult.ok (Value.boolean true) ∧
    convertToGo "false" "boolean" = ConvResult.ok (Value.boolean false) ∧
    convertToGo "f" "boolean" = ConvResult.ok (Value.boolean false) ∧
    convertToGo "0" "boolean" = ConvResult.ok (Value.boolean false) ∧
    convertToGo "yes" "boolean" = ConvResult.error "invalid syntax" ∧
    (∀ s : String, trimSpace s ∉ boolTokens →
      convertToGo s "boolean" = ConvResult.error "invalid syntax") := by
  refine ⟨by decide, by decide, by decide, by decide, by decide, by decide, by decide, ?_⟩
  intro s h
  simp only [boolTokens, List.mem_cons, List.not_mem_nil, or_false, not_or] at h
  obtain ⟨h1, h2, h3, h4, h5, h6, h7, h8, h9, h10, h11, h12⟩ := h
  show toBool (trimSpace s) = ConvResult.error "invalid syntax"
  unfold toBool goParseBool
  rw [if_neg (by rintro (he | he | he | he | he | he) <;>
        [exact h1 he; exact h2 he; exact h3 he; exact h4 he; exact h5 he; exact h6 he])]
  rw [if_neg (by rintro (he | he | he | he | he | he) <;>
        [exact h7 he; exact h8 he; exact h9 he; exact h10 he; exact h11 he; exact h12 he])]

/-- C8: any type-tag string outside the keys of the dispatch table is
rejected with the unsupported-type error naming the tag, for every
input value; no converter is applied. -/
theorem unknown_tag_unsupported :
    ∀ tag : String, tag ∉ knownTypeTags →
      ∀ v : String, convertToGo v tag = ConvResult.error ("Type not supported: " ++ tag) := by
  intro tag h v
  have hfind : toGoMappersList.find? (fun p => p.1 = tag) = none := by
    rw [List.find?_eq_none]
    intro p hp
    simp only [decide_eq_true_eq]
    intro hc
    exact h (hc ▸ List.mem_map_of_mem Prod.fst hp)
  unfold convertToGo toGoMappers
  rw [hfind]
  rfl

/-- Witness for C8 at a concrete tag outside the universe. -/
theorem unknown_tag_unsupported_witness :
    convertToGo "x" "text" = ConvResult.error "Type not supported: text" :=
  unknown_tag_unsupported "text" (by decide) "x"

/-- C9: the quoted-text tags and the blob tag slice v[1 : len(v)-1]
without a guard, so every input whose trimmed form is shorter than two
bytes makes the decoder panic instead of returning an error. -/
theorem quoted_tag_short_input_panics :
    ∀ (v tag : String),
      tag ∈ [mdb_CHAR, mdb_VARCHAR, mdb_CLOB, mdb_INTERVAL,
             mdb_MONTH_INTERVAL, mdb_SEC_INTERVAL, mdb_BLOB] →
      goLen (trimSpace v) < 2 →
      convertToGo v tag = ConvResult.panicked := by
  intro v tag htag hlen
  have hslice : sliceEnds (trimSpace v) = none := by
    unfold sliceEnds
    rw [if_pos hlen]
  fin_cases htag <;>
    first
    | (show strip (trimSpace v) = ConvResult.panicked
       unfold strip
       rw [hslice])
    | (show toByteArray (trimSpace v) = ConvResult.panicked
       unfold toByteArray
       rw [hslice])

/-- Witness for C9 at the empty input with the char tag. -/
theorem quoted_tag_short_input_panics_witness :
    convertToGo "" mdb_CHAR = ConvResult.panicked :=
  quoted_tag_short_input_panics "" mdb_CHAR (by decide) (by decide)

/-- Helper for the integer family: a converter that is dispatch plus
ParseInt at a given width decodes digit tokens by value and range. -/
theorem int_decode_of_conv (conv : String → ConvResult) (tag : String) (w : Nat)
    (hdisp : ∀ s, convertToGo s tag = conv (trimSpace s))
    (hconv : ∀ s, conv s =
      match goParseInt w s.data with
      | Except.ok n => ConvResult.ok (mkIntValue w n)
      | Except.error e => ConvResult.error e)
    (ds : List Char) (hne : ds ≠ []) (hd : ds.all isDigitC = true) :
    ((digitsVal ds : Int) ≤ 2 ^ (w - 1) - 1 →
      convertToGo ⟨ds⟩ tag = ConvResult.ok (mkIntValue w (digitsVal ds))) ∧
    (2 ^ (w - 1) - 1 < (digitsVal ds : Int) →
      convertToGo ⟨ds⟩ tag = ConvResult.error "value out of range") ∧
    (-(2 ^ (w - 1) : Int) ≤ -(digitsVal ds : Int) →
      convertToGo ⟨'-' :: ds⟩ tag = ConvResult.ok (mkIntValue w (-(digitsVal ds : Int)))) ∧
    (-(digitsVal ds : Int) < -(2 ^ (w - 1) : Int) →
      convertToGo ⟨'-' :: ds⟩ tag = ConvResult.error "value out of range") := by
  have hnosp : ∀ c ∈ ds, isGoSpace c = false := by
    intro c hc
    rw [List.all_eq_true] at hd
    exact digit_not_space c (hd c hc)
  have htrim1 : trimSpace ⟨ds⟩ = (⟨ds⟩ : String) := by
    unfold trimSpace
    rw [show (⟨ds⟩ : String).data = ds from rfl, trimSpaceL_eq_self ds hnosp]
  have htrim2 : trimSpace ⟨'-' :: ds⟩ = (⟨'-' :: ds⟩ : String) := by
    unfold trimSpace
    rw [show (⟨'-' :: ds⟩ : String).data = '-' :: ds from rfl]
    rw [trimSpaceL_eq_self ('-' :: ds) ?_]
    intro c hc
    rcases List.mem_cons.mp hc with rfl | hc2
    · decide
    · exact hnosp c hc2
  refine ⟨?_, ?_, ?_, ?_⟩
  · intro hle
    rw [hdisp, htrim1, hconv, show (⟨ds⟩ : String).data = ds from rfl,
      goParseInt_digits w ds hne hd, if_pos hle]
  · intro hgt
    rw [hdisp, htrim1, hconv, show (⟨ds⟩ : String).data = ds from rfl,
      goParseInt_digits w ds hne hd, if_neg (by omega)]
  · intro hle
    rw [hdisp, htrim2, hconv, show (⟨'-' :: ds⟩ : String).data = '-' :: ds from rfl,
      goParseInt_neg_digits w ds hne hd, if_pos hle]
  · intro hgt
    rw [hdisp, htrim2, hconv, show (⟨'-' :: ds⟩ : String).data = '-' :: ds from rfl,
      goParseInt_neg_digits w ds hne hd, if_neg (by omega)]

/-- C5: 127 decodes with the tinyint tag to the 8-bit value 127 while
128 is the out-of-range error; in general, over the whole integer
family, an all-digit token (optionally negated) decodes to its value
at the declared width when in range and to the out-of-range error
otherwise. -/
theorem int_family_width_decode :
    convertToGo "127" "tinyint" = ConvResult.ok (Value.int8 127) ∧
    convertToGo "128" "tinyint" = ConvResult.error "value out of range" ∧
    (∀ ds : List Char, ds ≠ [] → ds.all isDigitC = true →
      ∀ p ∈ intFamily,
        ((digitsVal ds : Int) ≤ 2 ^ (p.2 - 1) - 1 →
          convertToGo ⟨ds⟩ p.1 = ConvResult.ok (mkIntValue p.2 (digitsVal ds))) ∧
        (2 ^ (p.2 - 1) - 1 < (digitsVal ds : Int) →
          convertToGo ⟨ds⟩ p.1 = ConvResult.error "value out of range") ∧
        (-(2 ^ (p.2 - 1) : Int) ≤ -(digitsVal ds : Int) →
          convertToGo ⟨'-' :: ds⟩ p.1 =
            ConvResult.ok (mkIntValue p.2 (-(digitsVal ds : Int)))) ∧
        (-(digitsVal ds : Int) < -(2 ^ (p.2 - 1) : Int) →
          convertToGo ⟨'-' :: ds⟩ p.1 = ConvResult.error "value out of range")) := by
  refine ⟨by decide, by decide, ?_⟩
  intro ds hne hd p hp
  fin_cases hp
  · exact int_decode_of_conv toInt8 mdb_TINYINT 8 (fun _ => rfl) (fun _ => rfl) ds hne hd
  · exact int_decode_of_conv toInt16 mdb_SMALLINT 16 (fun _ => rfl) (fun _ => rfl) ds hne hd
  · exact int_decode_of_conv toInt16 mdb_SHORTINT 16 (fun _ => rfl) (fun _ => rfl) ds hne hd
  · exact int_decode_of_conv toInt32 mdb_INT 32 (fun _ => rfl) (fun _ => rfl) ds hne hd
  · exact int_decode_of_conv toInt32 mdb_WRD 32 (fun _ => rfl) (fun _ => rfl) ds hne hd
  · exact int_decode_of_conv toInt32 mdb_MEDIUMINT 32 (fun _ => rfl) (fun _ => rfl) ds hne hd
  · exact int_decode_of_conv toInt64 mdb_BIGINT 64 (fun _ => rfl) (fun _ => rfl) ds hne hd
  · exact int_decode_of_conv toInt64 mdb_HUGEINT 64 (fun _ => rfl) (fun _ => rfl) ds hne hd
  · exact int_decode_of_conv toInt64 mdb_SERIAL 64 (fun _ => rfl) (fun _ => rfl) ds hne hd
  · exact int_decode_of_conv toInt64 mdb_LONGINT 64 (fun _ => rfl) (fun _ => rfl) ds hne hd

/-- Witness for C5: the general part applied to the tokens 300 and
-128 at the tinyint tag. -/
theorem int_family_width_decode_witness :
    convertToGo "300" "tinyint" = ConvResult.error "value out of range" ∧
    convertToGo "-128" "tinyint" = ConvResult.ok (Value.int8 (-128)) := by
  have h3 := int_family_width_decode.2.2 ['3', '0', '0'] (by decide) (by decide)
    (mdb_TINYINT, 8) (by decide)
  have h1 := int_family_width_decode.2.2 ['1', '2', '8'] (by decide) (by decide)
    (mdb_TINYINT, 8) (by decide)
  exact ⟨h3.2.1 (by decide), h1.2.2.1 (by decide)⟩

/-- Witness for C6: a token outside the boolean grammar is rejected. -/
theorem boolean_grammar_decode_witness :
    convertToGo "maybe" "boolean" = ConvResult.error "invalid syntax" :=
  boolean_grammar_decode.2.2.2.2.2.2.2 "maybe" (by decide)

/-- C2 (amended): the layout list is, concretely, bare date first,
then the progressively more specific date-time layouts, with the
time-of-day layout last; parseTime tries the layouts in this order,
returns the result of the first layout that parses, and fails only
when every layout fails. -/
theorem parseTime_tries_layouts_in_order :
    timeFormats =
      ["2006-01-02", "2006-01-02 15:04:05", "2006-01-02 15:04:05 -0700",
       "2006-01-02 15:04:05 -0700 MST", "Mon Jan 2 15:04:05 -0700 MST 2006",
       "15:04:05"] ∧
    (∀ (v : String) (i : Nat) (hi : i < timeFormats.length) (t : GoTime),
      (∀ j, (hj : j < timeFormats.length) → j < i →
        isErr (goTimeParse (timeFormats.get ⟨j, hj⟩) v) = true) →
      goTimeParse (timeFormats.get ⟨i, hi⟩) v = Except.ok t →
      parseTime v = Except.ok t) ∧
    (∀ v : String, (∀ f ∈ timeFormats, isErr (goTimeParse f v) = true) →
      isErr (parseTime v) = true) := by
  refine ⟨rfl, ?_, ?_⟩
  · intro v i hi t hprev hok
    exact parseTimeAux_first v timeFormats i hi t hprev hok
  · intro v h
    exact parseTimeAux_all_err v timeFormats (by simp [timeFormats]) h

/-- Witness for C2: the zoned input is accepted by the third layout
after the first two fail, and an unparsable input fails through every
layout. -/
theorem parseTime_tries_layouts_in_order_witness :
    parseTime "2006-01-02 15:04:05 -0700" =
      Except.ok ⟨2006, 1, 2, 15, 4, 5, some (-25200), ""⟩ ∧
    isErr (parseTime "garbage") = true := by
  constructor
  · refine parseTime_tries_layouts_in_order.2.1 "2006-01-02 15:04:05 -0700" 2 (by decide)
      ⟨2006, 1, 2, 15, 4, 5, some (-25200), ""⟩ ?_ (by rfl)
    intro j hj hlt
    interval_cases j
    · show isErr (goTimeParse "2006-01-02" "2006-01-02 15:04:05 -0700") = true
      decide
    · show isErr (goTimeParse "2006-01-02 15:04:05" "2006-01-02 15:04:05 -0700") = true
      decide
  · exact parseTime_tries_layouts_in_order.2.2 "garbage" (by decide)

end GoMonetdb
